import Mathlib

/-!
Verification of the SumGame grid/game-state engine (src/src/App.tsx).

The engine is embedded shallowly: React `useState` fields become the fields
of an `App` structure, each handler becomes a pure function `App → App`,
and `Math.random()` is modelled by an abstract stream of natural numbers
(`Rng`): `Math.floor(Math.random() * n)` becomes a stream draw reduced
modulo `n`, which is exactly an arbitrary value in `[0, n-1]`.  The React
batched state updates of one event handler are folded into a single
transition, and the `useEffect` that maintains the high score (which runs
after every commit, before the next event) is folded into the step
function.  The classic-mode `setTimeout(addRow, 300)` is modelled by a
queue of pending deferred calls, each remembering the `mode` captured by
the scheduled closure; the source never calls `clearTimeout` on it, and
the model reproduces that.
-/

namespace SumGame

/-- GRID_COLS from App.tsx. -/
def GRID_COLS : Nat := 6

/-- GRID_ROWS from App.tsx. -/
def GRID_ROWS : Nat := 10

/-- INITIAL_ROWS from App.tsx. -/
def INITIAL_ROWS : Nat := 4

/-- TARGET_MIN from App.tsx. -/
def TARGET_MIN : Nat := 10

/-- TARGET_MAX from App.tsx. -/
def TARGET_MAX : Nat := 30

/-- TIME_MODE_SECONDS from App.tsx. -/
def TIME_MODE_SECONDS : Nat := 10

/-- Embeds `type GameMode = classic | time`. -/
inductive GameMode where
  | classic
  | time
deriving DecidableEq, Repr

/-- Embeds `type GameState = menu | playing | gameover`. -/
inductive GameState where
  | menu
  | playing
  | gameover
deriving DecidableEq, Repr

/-- Embeds `interface BlockData`, with fields id, value and isNew;
the opaque random id string is modelled as the raw random draw. -/
structure BlockData where
  id : Nat
  value : Nat
  isNew : Bool
deriving DecidableEq, Repr

/-- A board cell: `BlockData | null`. -/
abbrev Cell := Option BlockData

/-- The grid: `(BlockData | null)[][]`. -/
abbrev Grid := List (List Cell)

/-- A selected coordinate `{ r, c }`. -/
structure Coord where
  r : Nat
  c : Nat
deriving DecidableEq, Repr

/-- Abstract model of `Math.random()`: a stream of arbitrary naturals
together with a position counter. -/
structure Rng where
  stream : Nat → Nat
  pos : Nat

/-- Draw one raw value from the stream (models one `Math.random()` call
whose result is used as an opaque token, e.g. a block id). -/
def rawDraw (g : Rng) : Nat × Rng :=
  (g.stream g.pos, ⟨g.stream, g.pos + 1⟩)

/-- Models `Math.floor(Math.random() * n)`: an arbitrary natural below `n`. -/
def randBelow (n : Nat) (g : Rng) : Nat × Rng :=
  (g.stream g.pos % n, ⟨g.stream, g.pos + 1⟩)

/-- Embeds `generateTarget`: `Math.floor(Math.random() * (TARGET_MAX - TARGET_MIN + 1)) + TARGET_MIN`. -/
def generateTarget (g : Rng) : Nat × Rng :=
  ((randBelow (TARGET_MAX - TARGET_MIN + 1) g).1 + TARGET_MIN,
   (randBelow (TARGET_MAX - TARGET_MIN + 1) g).2)

/-- The loop body of `generateRow`, pushing `n` fresh blocks:
`{ id: Math.random()..., value: Math.floor(Math.random() * 9) + 1, isNew: true }`. -/
def generateCells : Nat → Rng → List Cell × Rng
  | 0, g => ([], g)
  | n + 1, g =>
    let g1 := (rawDraw g).2
    let g2 := (randBelow 9 g1).2
    (some ⟨(rawDraw g).1, (randBelow 9 g1).1 + 1, true⟩ :: (generateCells n g2).1,
     (generateCells n g2).2)

/-- Embeds `generateRow`: a row of `GRID_COLS` fresh blocks. -/
def generateRow (g : Rng) : List Cell × Rng :=
  generateCells GRID_COLS g

/-- The indexed map `row.map((cell, ci) => ...)`, counting from `i`. -/
def idxMapFrom {α β : Type} (f : Nat → α → β) : Nat → List α → List β
  | _, [] => []
  | i, a :: as => f i a :: idxMapFrom f (i + 1) as

/-- The indexed map `l.map((x, i) => f(i, x))`. -/
def idxMap {α β : Type} (f : Nat → α → β) (l : List α) : List β :=
  idxMapFrom f 0 l

/-- Reading `grid[r][c]`; an out-of-bounds index yields `none` (clicks only
ever come from rendered in-bounds cells, so the code never indexes out of
bounds). -/
def cellAt (g : Grid) (r c : Nat) : Cell :=
  match g[r]? with
  | some row =>
    match row[c]? with
    | some cell => cell
    | none => none
  | none => none

/-- The coordinate test `s.r === r && s.c === c` used by the handlers. -/
def coordEq (p : Coord) (r c : Nat) : Bool :=
  p.r == r && p.c == c

/-- Embeds `checkGameOver`: `currentGrid[0].some(cell => cell !== null)`. -/
def checkGameOver (g : Grid) : Bool :=
  (g.headD []).any (fun cell => cell.isSome)

/-- The sum `selected.reduce((sum, s) => sum + (grid[s.r][s.c]?.value || 0), 0)`:
an empty (or out-of-bounds) coordinate contributes 0. -/
def selectionSum (g : Grid) (sel : List Coord) : Nat :=
  sel.foldl
    (fun acc p =>
      match cellAt g p.r p.c with
      | some b => acc + b.value
      | none => acc)
    0

/-- The selection toggle inside `handleBlockClick`: deselect if present,
else append at the end. -/
def toggle (sel : List Coord) (r c : Nat) : List Coord :=
  if sel.any (fun p => coordEq p r c) then
    sel.filter (fun p => !(coordEq p r c))
  else
    sel ++ [⟨r, c⟩]

/-- The board update on a match:
`grid.map((row, ri) => row.map((cell, ci) => sel.some(...) ? null : cell))`. -/
def removeCells (g : Grid) (sel : List Coord) : Grid :=
  idxMap
    (fun ri row =>
      idxMap (fun ci cell => if sel.any (fun p => coordEq p ri ci) then none else cell) row)
    g

/-- The whole component state (the `useState` fields the engine touches),
plus the queue of scheduled-but-not-yet-fired `setTimeout(addRow, 300)`
closures; each entry records the `mode` value the closure captured. -/
structure App where
  gameState : GameState
  mode : GameMode
  grid : Grid
  target : Nat
  selected : List Coord
  score : Nat
  timeLeft : Nat
  highScore : Nat
  rng : Rng
  pending : List GameMode

/-- The body of `addRow` as scheduled by a closure that captured
`capturedMode`.  The `setGrid` updater computes the shifted grid
(consuming randomness) before testing `checkGameOver(prev)`; on game over
it keeps the previous grid and sets the phase, otherwise it commits the
shift.  It never checks the current phase.  Afterwards,
`if (mode === time) setTimeLeft(TIME_MODE_SECONDS)`. -/
def addRowWith (capturedMode : GameMode) (s : App) : App :=
  let s1 :=
    if checkGameOver s.grid then
      { s with gameState := GameState.gameover, rng := (generateRow s.rng).2 }
    else
      { s with grid := s.grid.drop 1 ++ [(generateRow s.rng).1], rng := (generateRow s.rng).2 }
  if capturedMode = GameMode.time then { s1 with timeLeft := TIME_MODE_SECONDS } else s1

/-- The `addRow` callback invoked with the current `mode`. -/
def addRow (s : App) : App :=
  addRowWith s.mode s

/-- Embeds `startGame(selectedMode)`: empty grid of `GRID_ROWS × GRID_COLS`, the
bottom `INITIAL_ROWS` rows regenerated, fresh target, score 0, phase
`playing`, empty selection, timer reset.  It does not cancel any pending
deferred `addRow`. -/
def genRows : Nat → Rng → List (List Cell) × Rng
  | 0, g => ([], g)
  | n + 1, g =>
    ((generateRow g).1 :: (genRows n (generateRow g).2).1,
     (genRows n (generateRow g).2).2)

/-- The function `startGame(selectedMode)` itself. -/
def startGame (selectedMode : GameMode) (s : App) : App :=
  let g1 := (genRows INITIAL_ROWS s.rng).2
  { s with
    grid := List.replicate (GRID_ROWS - INITIAL_ROWS) (List.replicate GRID_COLS none) ++
      (genRows INITIAL_ROWS s.rng).1
    target := (generateTarget g1).1
    score := 0
    mode := selectedMode
    gameState := GameState.playing
    selected := []
    timeLeft := TIME_MODE_SECONDS
    rng := (generateTarget g1).2 }

/-- Embeds `handleBlockClick(r, c)`: no-op unless playing and the cell is
occupied; toggles the selection, compares the new sum with the target, and
takes the match / overshoot / pending branch. -/
def handleBlockClick (r c : Nat) (s : App) : App :=
  if s.gameState = GameState.playing then
    match cellAt s.grid r c with
    | none => s
    | some _ =>
      let newSelected := toggle s.selected r c
      let currentSum := selectionSum s.grid newSelected
      if currentSum = s.target then
        let s1 :=
          { s with
            score := s.score + newSelected.length * 10
            grid := removeCells s.grid newSelected
            selected := []
            target := (generateTarget s.rng).1
            rng := (generateTarget s.rng).2 }
        if s.mode = GameMode.classic then
          { s1 with pending := s1.pending ++ [s.mode] }
        else
          { s1 with timeLeft := TIME_MODE_SECONDS }
      else if s.target < currentSum then
        { s with selected := [] }
      else
        { s with selected := newSelected }
  else s

/-- One firing of the interval armed while `playing ∧ time`:
`setTimeLeft(prev => prev <= 1 ? (addRow(); TIME_MODE_SECONDS) : prev - 1)`.
The interval exists only while the guard holds, so the event is a no-op
otherwise. -/
def tick (s : App) : App :=
  if s.gameState = GameState.playing ∧ s.mode = GameMode.time then
    if s.timeLeft ≤ 1 then
      { addRow s with timeLeft := TIME_MODE_SECONDS }
    else
      { s with timeLeft := s.timeLeft - 1 }
  else s

/-- The oldest scheduled `setTimeout(addRow, 300)` closure fires: it is
removed from the queue and its captured `addRow` runs against the current
state; nothing in the source guards or cancels it. -/
def fireAddRow (s : App) : App :=
  match s.pending with
  | [] => s
  | m :: rest => addRowWith m { s with pending := rest }

/-- The back / main-menu buttons: `setGameState(menu)`.  Grid, score and
selection are simply abandoned in place; pending timeouts survive. -/
def returnToMenu (s : App) : App :=
  { s with gameState := GameState.menu }

/-- The clear-selection control (rendered only while playing):
`setSelected([])`. -/
def clearSelection (s : App) : App :=
  if s.gameState = GameState.playing then { s with selected := [] } else s

/-- The high-score effect: `if (score > highScore) setHighScore(score)`,
which React runs after every commit, before the next event is processed. -/
def updateHighScore (s : App) : App :=
  if s.highScore < s.score then { s with highScore := s.score } else s

/-- The external intents that can reach the engine. -/
inductive Ev where
  | start (m : GameMode)
  | click (r c : Nat)
  | clearSel
  | tick
  | fireAddRow
  | toMenu

/-- Dispatch of one intent to its handler. -/
def rawStep : Ev → App → App
  | Ev.start m => startGame m
  | Ev.click r c => handleBlockClick r c
  | Ev.clearSel => clearSelection
  | Ev.tick => tick
  | Ev.fireAddRow => fireAddRow
  | Ev.toMenu => returnToMenu

/-- One fully-committed event: the handler plus the high-score effect. -/
def applyEv (e : Ev) (s : App) : App :=
  updateHighScore (rawStep e s)

/-- The initial component state (all `useState` initial values). -/
def init (g : Rng) : App :=
  { gameState := GameState.menu
    mode := GameMode.classic
    grid := []
    target := 0
    selected := []
    score := 0
    timeLeft := TIME_MODE_SECONDS
    highScore := 0
    rng := g
    pending := [] }

/-- The states the component can actually be in. -/
inductive Reachable : App → Prop
  | init (g : Rng) : Reachable (init g)
  | step (e : Ev) {s : App} : Reachable s → Reachable (applyEv e s)

/-- Boolean check that a cell holds a block whose value lies in `[1, 9]`. -/
def blockValueOK (cell : Cell) : Bool :=
  match cell with
  | some b => decide (1 ≤ b.value) && decide (b.value ≤ 9)
  | none => false

/-- A fixed concrete random stream used to build demonstration states. -/
def demoRng : Rng := ⟨fun n => n, 0⟩

/-- A fully empty row. -/
def eRow : List Cell := List.replicate GRID_COLS none

/-- A concrete in-play state obtained by starting a classic round. -/
def sDemo : App := startGame GameMode.classic (init demoRng)

lemma generateCells_length (n : Nat) (g : Rng) : ((generateCells n g).1).length = n := by
  induction n generalizing g with
  | zero => rfl
  | succ n ih => simp [generateCells, ih]

lemma generateCells_valid (n : Nat) (g : Rng) :
    ((generateCells n g).1).all blockValueOK = true := by
  induction n generalizing g with
  | zero => rfl
  | succ n ih =>
    have h9 : (g.stream (g.pos + 1)) % 9 < 9 := Nat.mod_lt _ (by norm_num)
    simp only [generateCells, List.all_cons, Bool.and_eq_true, blockValueOK, randBelow, rawDraw]
    refine ⟨⟨?_, ?_⟩, ih _⟩
    · simp
    · simp
      omega

/-- C8: every random target draw lies in `[10, 30]`; every generated row
has exactly 6 cells, each holding a block whose value lies in `[1, 9]`. -/
theorem c8_generator_ranges (g : Rng) :
    10 ≤ (generateTarget g).1 ∧ (generateTarget g).1 ≤ 30 ∧
    (generateRow g).1.length = 6 ∧
    ((generateRow g).1.all blockValueOK) = true := by
  have h21 : (g.stream g.pos) % 21 < 21 := Nat.mod_lt _ (by norm_num)
  refine ⟨?_, ?_, ?_, ?_⟩
  · simp [generateTarget, randBelow, TARGET_MIN, TARGET_MAX]
  · simp only [generateTarget, randBelow, TARGET_MIN, TARGET_MAX]
    omega
  · exact generateCells_length GRID_COLS g
  · exact generateCells_valid GRID_COLS g

/-- C1: `addRow` either detects game over (and freezes the board) or, when
row 0 of the pre-call board is empty, keeps playing and commits the shift:
row 0 dropped, one fresh row appended at the bottom. -/
theorem c1_addRow_dichotomy (s : App) (hp : s.gameState = GameState.playing) :
    (checkGameOver s.grid = true →
      (addRow s).gameState = GameState.gameover ∧ (addRow s).grid = s.grid) ∧
    (checkGameOver s.grid = false →
      (addRow s).gameState = GameState.playing ∧
      (addRow s).grid = s.grid.drop 1 ++ [(generateRow s.rng).1]) := by
  refine ⟨fun hgo => ?_, fun hgo => ?_⟩ <;>
    simp only [addRow, addRowWith, hgo, if_true, Bool.false_eq_true, if_false] <;>
    split <;> simp [hp]

/-- Witness for C1 at the concrete started round (row 0 empty there). -/
theorem c1_addRow_dichotomy_witness :
    checkGameOver sDemo.grid = false ∧
    (addRow sDemo).gameState = GameState.playing ∧
    (addRow sDemo).grid = sDemo.grid.drop 1 ++ [(generateRow sDemo.rng).1] :=
  ⟨by decide, (c1_addRow_dichotomy sDemo (by decide)).2 (by decide)⟩

lemma idxMapFrom_getElem? {α β : Type} (f : Nat → α → β) (l : List α) :
    ∀ (i j : Nat), (idxMapFrom f i l)[j]? = (l[j]?).map fun a => f (i + j) a := by
  induction l with
  | nil => intro i j; simp [idxMapFrom]
  | cons a as ih =>
    intro i j
    cases j with
    | zero => simp [idxMapFrom]
    | succ j =>
      have h : i + (j + 1) = i + 1 + j := by omega
      simp [idxMapFrom, ih (i + 1) j, h]

/-- Pointwise description of `removeCells`: a selected coordinate reads as
empty, any other coordinate reads exactly as before. -/
lemma cellAt_removeCells (g : Grid) (sel : List Coord) (r c : Nat) :
    cellAt (removeCells g sel) r c =
      if sel.any (fun p => coordEq p r c) then none else cellAt g r c := by
  unfold cellAt removeCells idxMap
  rw [idxMapFrom_getElem?]
  cases hg : g[r]? with
  | none => simp
  | some row =>
    simp only [Option.map_some']
    rw [idxMapFrom_getElem?]
    cases hc : row[c]? with
    | none => simp
    | some cell => simp

/-- The value a coordinate contributes to the current sum. -/
def cellValue (g : Grid) (p : Coord) : Nat :=
  match cellAt g p.r p.c with
  | some b => b.value
  | none => 0

lemma selectionSum_foldl (g : Grid) (sel : List Coord) (a : Nat) :
    sel.foldl
      (fun acc p =>
        match cellAt g p.r p.c with
        | some b => acc + b.value
        | none => acc)
      a = a + (sel.map fun p => cellValue g p).sum := by
  induction sel generalizing a with
  | nil => simp
  | cons p ps ih =>
    simp only [List.foldl_cons, List.map_cons, List.sum_cons]
    rw [ih]
    have hstep : (match cellAt g p.r p.c with
        | some b => a + b.value
        | none => a) = a + cellValue g p := by
      unfold cellValue
      cases h : cellAt g p.r p.c <;> simp
    rw [hstep, Nat.add_assoc]

lemma selectionSum_eq_sum (g : Grid) (sel : List Coord) :
    selectionSum g sel = (sel.map fun p => cellValue g p).sum := by
  simpa [selectionSum] using selectionSum_foldl g sel 0

/-- C10: the current-sum computation is a total fold in which a selected
coordinate that refers to an empty cell contributes 0 instead of faulting. -/
theorem c10_empty_cell_contributes_zero (g : Grid) (sel : List Coord) (r c : Nat)
    (h : cellAt g r c = none) :
    selectionSum g (⟨r, c⟩ :: sel) = selectionSum g sel := by
  simp [selectionSum_eq_sum, cellValue, h]

/-- Witness for C10: an empty coordinate of the demo board contributes 0. -/
theorem c10_empty_cell_contributes_zero_witness :
    cellAt sDemo.grid 0 0 = none ∧
    selectionSum sDemo.grid (⟨0, 0⟩ :: [⟨9, 0⟩]) = selectionSum sDemo.grid [⟨9, 0⟩] :=
  ⟨by decide, c10_empty_cell_contributes_zero sDemo.grid [⟨9, 0⟩] 0 0 (by decide)⟩

/-- C2: a click that completes the target sum awards `10 ×` the selection
size, empties exactly the selected coordinates (every other cell is read
back unchanged, identity and value included), clears the selection and
draws a new target. -/
theorem c2_match_outcome (s : App) (r c ri ci : Nat) (b : BlockData)
    (hp : s.gameState = GameState.playing)
    (hb : cellAt s.grid r c = some b)
    (hsum : selectionSum s.grid (toggle s.selected r c) = s.target) :
    (handleBlockClick r c s).score = s.score + 10 * (toggle s.selected r c).length ∧
    (handleBlockClick r c s).selected = [] ∧
    (handleBlockClick r c s).target = (generateTarget s.rng).1 ∧
    ((toggle s.selected r c).any (fun p => coordEq p ri ci) = true →
      cellAt (handleBlockClick r c s).grid ri ci = none) ∧
    ((toggle s.selected r c).any (fun p => coordEq p ri ci) = false →
      cellAt (handleBlockClick r c s).grid ri ci = cellAt s.grid ri ci) := by
  simp only [handleBlockClick, hp, if_true, hb, hsum]
  by_cases hm : s.mode = GameMode.classic <;>
    refine ⟨by simp [hm, Nat.mul_comm], by simp [hm], by simp [hm], fun hmem => ?_, fun hmem => ?_⟩ <;>
    simp [hm, cellAt_removeCells, hmem]

/-- A concrete occupied cell for demonstration boards. -/
def block (i v : Nat) : Cell := some ⟨i, v, false⟩

/-- Bottom row holding a 4 and a 6. -/
def demoRow9 : List Cell := [block 900 4, block 901 6, none, none, none, none]

/-- A 10 × 6 board, empty except for the 4 and the 6 in the bottom row. -/
def demoGrid : Grid := List.replicate 9 eRow ++ [demoRow9]

/-- In-play classic state: target 10, the 4 at (9,0) already selected. -/
def matchState : App :=
  { gameState := GameState.playing
    mode := GameMode.classic
    grid := demoGrid
    target := 10
    selected := [⟨9, 0⟩]
    score := 0
    timeLeft := TIME_MODE_SECONDS
    highScore := 0
    rng := demoRng
    pending := [] }

/-- Witness for C2: clicking the 6 at (9,1) completes 4 + 6 = 10. -/
theorem c2_match_outcome_witness :
    cellAt matchState.grid 9 1 = some ⟨901, 6, false⟩ ∧
    selectionSum matchState.grid (toggle matchState.selected 9 1) = matchState.target ∧
    (handleBlockClick 9 1 matchState).score =
      matchState.score + 10 * (toggle matchState.selected 9 1).length ∧
    (handleBlockClick 9 1 matchState).selected = [] ∧
    (handleBlockClick 9 1 matchState).target = (generateTarget matchState.rng).1 ∧
    cellAt (handleBlockClick 9 1 matchState).grid 9 0 = none ∧
    cellAt (handleBlockClick 9 1 matchState).grid 8 0 = cellAt matchState.grid 8 0 := by
  have h1 := c2_match_outcome matchState 9 1 9 0 ⟨901, 6, false⟩ (by decide) (by decide) (by decide)
  have h2 := c2_match_outcome matchState 9 1 8 0 ⟨901, 6, false⟩ (by decide) (by decide) (by decide)
  exact ⟨by decide, by decide, h1.1, h1.2.1, h1.2.2.1, h1.2.2.2.1 (by decide),
    h2.2.2.2.2 (by decide)⟩

/-- C6: a click whose toggled sum exceeds the target clears the whole
selection and changes nothing else (score, board, target all unchanged). -/
theorem c6_overshoot_clears_selection (s : App) (r c : Nat) (b : BlockData)
    (hp : s.gameState = GameState.playing)
    (hb : cellAt s.grid r c = some b)
    (hgt : s.target < selectionSum s.grid (toggle s.selected r c)) :
    handleBlockClick r c s = { s with selected := [] } := by
  have hne : ¬ selectionSum s.grid (toggle s.selected r c) = s.target := by omega
  simp [handleBlockClick, hp, hb, hne, hgt]

/-- In-play classic state: target 9, the 4 at (9,0) already selected. -/
def overshootState : App :=
  { matchState with target := 9 }

/-- Witness for C6: adding the 6 overshoots the target 9. -/
theorem c6_overshoot_clears_selection_witness :
    overshootState.target < selectionSum overshootState.grid (toggle overshootState.selected 9 1) ∧
    handleBlockClick 9 1 overshootState = { overshootState with selected := [] } :=
  ⟨by decide,
    c6_overshoot_clears_selection overshootState 9 1 ⟨901, 6, false⟩ (by decide) (by decide)
      (by decide)⟩

/-- State used to refute C4 as stated (same board, target 9). -/
def c4State : App :=
  { matchState with target := 9 }

/-- Counterexample to C4 as stated: with target 9 and the 4 at (9,0)
selected, clicking the occupied cell (9,1) twice does not restore the
prior selection — the first click overshoots (4 + 6 = 10 > 9) and clears
the selection, the second click starts a new selection `[(9,1)]`. -/
theorem c4_counterexample :
    c4State.gameState = GameState.playing ∧
    (cellAt c4State.grid 9 1).isSome = true ∧
    (handleBlockClick 9 1 (handleBlockClick 9 1 c4State)).selected ≠ c4State.selected := by
  exact ⟨by decide, by decide, by decide⟩

/-- C4 (amended): double-clicking an occupied, not-yet-selected cell
restores the entire prior state exactly, provided the toggled sum stays
strictly below the target (so neither click triggers Match or Overshoot). -/
theorem c4_double_click_restores (s : App) (r c : Nat) (b : BlockData)
    (hp : s.gameState = GameState.playing)
    (hb : cellAt s.grid r c = some b)
    (hns : s.selected.any (fun p => coordEq p r c) = false)
    (hlt : selectionSum s.grid (s.selected ++ [⟨r, c⟩]) < s.target) :
    handleBlockClick r c (handleBlockClick r c s) = s := by
  have htog1 : toggle s.selected r c = s.selected ++ [Coord.mk r c] := by
    simp [toggle, hns]
  have hne1 : ¬ selectionSum s.grid (s.selected ++ [Coord.mk r c]) = s.target := by omega
  have hngt1 : ¬ s.target < selectionSum s.grid (s.selected ++ [Coord.mk r c]) := by omega
  have hclick1 : handleBlockClick r c s = { s with selected := s.selected ++ [Coord.mk r c] } := by
    simp [handleBlockClick, hp, hb, htog1, hne1, hngt1]
  have hmem : (s.selected ++ [Coord.mk r c]).any (fun p => coordEq p r c) = true := by
    simp [List.any_append, coordEq]
  have htog2 : toggle (s.selected ++ [Coord.mk r c]) r c = s.selected := by
    simp only [toggle, hmem, if_true, List.filter_append]
    have h1 : s.selected.filter (fun p => !(coordEq p r c)) = s.selected := by
      refine List.filter_eq_self.mpr fun p hps => ?_
      have hfalse := (List.any_eq_false.mp hns) p hps
      simp only [Bool.not_eq_true] at hfalse
      simp [hfalse]
    have h2 : ([Coord.mk r c] : List Coord).filter (fun p => !(coordEq p r c)) = [] := by
      simp [coordEq]
    rw [h1, h2, List.append_nil]
  have hmono : selectionSum s.grid s.selected ≤
      selectionSum s.grid (s.selected ++ [Coord.mk r c]) := by
    simp only [selectionSum_eq_sum, List.map_append, List.sum_append]
    exact Nat.le_add_right _ _
  have hne2 : ¬ selectionSum s.grid s.selected = s.target := by omega
  have hngt2 : ¬ s.target < selectionSum s.grid s.selected := by omega
  rw [hclick1]
  have hb2 : cellAt ({ s with selected := s.selected ++ [Coord.mk r c] } : App).grid r c =
      some b := hb
  have hfinal : handleBlockClick r c { s with selected := s.selected ++ [Coord.mk r c] } =
      { s with selected := s.selected } := by
    simp [handleBlockClick, hp, hb2, htog2, hne2, hngt2]
  rw [hfinal]

/-- In-play classic state with an empty selection, used for the C4 witness. -/
def c4PendState : App :=
  { matchState with selected := [] }

/-- Witness for C4 (amended): double-clicking the 4 at (9,0) from an empty
selection (4 < 10) restores the state exactly. -/
theorem c4_double_click_restores_witness :
    (cellAt c4PendState.grid 9 0).isSome = true ∧
    selectionSum c4PendState.grid (c4PendState.selected ++ [⟨9, 0⟩]) < c4PendState.target ∧
    handleBlockClick 9 0 (handleBlockClick 9 0 c4PendState) = c4PendState :=
  ⟨by decide, by decide,
    c4_double_click_restores c4PendState 9 0 ⟨900, 4, false⟩ (by decide) (by decide) (by decide)
      (by decide)⟩

/-- C7: in timed play a tick decrements the countdown, except that a tick
from 1 (the value that would reach 0) instead performs `addRow` and resets
the countdown to 10 in the same transition; a tick never leaves the
countdown at 0. -/
theorem c7_tick_semantics (s : App)
    (hp : s.gameState = GameState.playing) (hm : s.mode = GameMode.time) :
    (1 < s.timeLeft → tick s = { s with timeLeft := s.timeLeft - 1 }) ∧
    (s.timeLeft = 1 → tick s = { addRow s with timeLeft := TIME_MODE_SECONDS }) ∧
    (tick s).timeLeft ≠ 0 := by
  refine ⟨fun h1 => ?_, fun h1 => ?_, ?_⟩
  · have hnle : ¬ s.timeLeft ≤ 1 := by omega
    simp [tick, hp, hm, hnle]
  · simp [tick, hp, hm, h1]
  · by_cases hle : s.timeLeft ≤ 1
    · simp [tick, hp, hm, hle, TIME_MODE_SECONDS]
    · simp [tick, hp, hm, hle]
      omega

/-- Timed in-play state with 5 seconds left. -/
def timeState : App :=
  { matchState with mode := GameMode.time, timeLeft := 5 }

/-- Witness for C7 at the timed demo state. -/
theorem c7_tick_semantics_witness :
    1 < timeState.timeLeft ∧
    tick timeState = { timeState with timeLeft := timeState.timeLeft - 1 } ∧
    (tick timeState).timeLeft ≠ 0 :=
  ⟨by decide,
    (c7_tick_semantics timeState (by decide) (by decide)).1 (by decide),
    (c7_tick_semantics timeState (by decide) (by decide)).2.2⟩

lemma handleBlockClick_shape (r c : Nat) (s : App) :
    (handleBlockClick r c s).highScore = s.highScore ∧
    ((handleBlockClick r c s).selected = s.selected ∨
     (handleBlockClick r c s).selected = [] ∨
     (handleBlockClick r c s).selected = toggle s.selected r c) := by
  by_cases hps : s.gameState = GameState.playing
  · cases hcell : cellAt s.grid r c with
    | none => simp [handleBlockClick, hps, hcell]
    | some b =>
      by_cases h1 : selectionSum s.grid (toggle s.selected r c) = s.target
      · by_cases h2 : s.mode = GameMode.classic <;>
          simp [handleBlockClick, hps, hcell, h1, h2]
      · by_cases h2 : s.target < selectionSum s.grid (toggle s.selected r c) <;>
          simp [handleBlockClick, hps, hcell, h1, h2]
  · simp [handleBlockClick, hps]

lemma addRowWith_fields (m : GameMode) (s : App) :
    (addRowWith m s).highScore = s.highScore ∧ (addRowWith m s).selected = s.selected := by
  by_cases hgo : checkGameOver s.grid = true <;> by_cases hm : m = GameMode.time <;>
    simp [addRowWith, hgo, hm]

lemma tick_fields (s : App) :
    (tick s).highScore = s.highScore ∧ (tick s).selected = s.selected := by
  unfold tick
  split
  · split
    · exact ⟨(addRowWith_fields _ _).1, (addRowWith_fields _ _).2⟩
    · exact ⟨rfl, rfl⟩
  · exact ⟨rfl, rfl⟩

lemma fireAddRow_fields (s : App) :
    (fireAddRow s).highScore = s.highScore ∧ (fireAddRow s).selected = s.selected := by
  unfold fireAddRow
  cases hpend : s.pending with
  | nil => exact ⟨rfl, rfl⟩
  | cons m rest => exact ⟨(addRowWith_fields m _).1, (addRowWith_fields m _).2⟩

lemma updateHighScore_fields (s : App) :
    (updateHighScore s).selected = s.selected ∧ s.highScore ≤ (updateHighScore s).highScore := by
  unfold updateHighScore
  split
  · exact ⟨rfl, Nat.le_of_lt ‹_›⟩
  · exact ⟨rfl, Nat.le_refl _⟩

lemma updateHighScore_score_le (s : App) :
    (updateHighScore s).score ≤ (updateHighScore s).highScore := by
  unfold updateHighScore
  split
  · exact Nat.le_refl _
  · exact Nat.le_of_not_lt ‹_›

lemma rawStep_highScore (e : Ev) (s : App) : (rawStep e s).highScore = s.highScore := by
  cases e with
  | start m => rfl
  | click r c => exact (handleBlockClick_shape r c s).1
  | clearSel =>
    show (clearSelection s).highScore = s.highScore
    unfold clearSelection
    split
    · rfl
    · rfl
  | tick => exact (tick_fields s).1
  | fireAddRow => exact (fireAddRow_fields s).1
  | toMenu => rfl

/-- C9: in every reachable state the best score is the running maximum of
all scores seen so far, and no event — menu return, restart, lost round or
otherwise — ever decreases it. -/
theorem c9_bestScore_invariant (s : App) (e : Ev) (hs : Reachable s) :
    s.highScore = max s.highScore s.score ∧ s.highScore ≤ (applyEv e s).highScore := by
  constructor
  · have hinv : s.score ≤ s.highScore := by
      induction hs with
      | init g => exact Nat.le_refl 0
      | step e' hs' ih => exact updateHighScore_score_le _
    exact (Nat.max_eq_left hinv).symm
  · calc s.highScore = (rawStep e s).highScore := (rawStep_highScore e s).symm
    _ ≤ (updateHighScore (rawStep e s)).highScore := (updateHighScore_fields _).2

/-- Witness for C9 at the initial state under a menu-return event. -/
theorem c9_bestScore_invariant_witness :
    (init demoRng).highScore = max (init demoRng).highScore (init demoRng).score ∧
    (init demoRng).highScore ≤ (applyEv Ev.toMenu (init demoRng)).highScore :=
  c9_bestScore_invariant (init demoRng) Ev.toMenu (Reachable.init demoRng)

lemma coordEq_eq_true_iff (p : Coord) (r c : Nat) : coordEq p r c = true ↔ p = Coord.mk r c := by
  cases p with
  | mk pr pc => simp [coordEq, Coord.mk.injEq]

lemma toggle_nodup (sel : List Coord) (r c : Nat) (h : sel.Nodup) : (toggle sel r c).Nodup := by
  unfold toggle
  split
  · exact h.filter _
  · rename_i hany
    have hnotmem : Coord.mk r c ∉ sel := by
      intro hmem
      exact hany (List.any_eq_true.mpr ⟨_, hmem, (coordEq_eq_true_iff _ r c).mpr rfl⟩)
    simp [List.nodup_append, h, hnotmem]

/-- C5 (amended): in every reachable state the selection holds no
duplicate coordinates.  (The occupied-cell half of the claimed invariant
is not preserved by `addRow`: see the counterexample.) -/
theorem c5_selection_nodup (s : App) (hs : Reachable s) : s.selected.Nodup := by
  induction hs with
  | init g => exact List.nodup_nil
  | step e hs' ih =>
    unfold applyEv
    rw [(updateHighScore_fields _).1]
    cases e with
    | start m => exact List.nodup_nil
    | click r c =>
      simp only [rawStep]
      rcases (handleBlockClick_shape r c _).2 with h | h | h
      · rw [h]; exact ih
      · rw [h]; exact List.nodup_nil
      · rw [h]; exact toggle_nodup _ _ _ ih
    | clearSel =>
      show (clearSelection _).selected.Nodup
      unfold clearSelection
      split
      · exact List.nodup_nil
      · exact ih
    | tick =>
      simp only [rawStep]
      rw [(tick_fields _).2]
      exact ih
    | fireAddRow =>
      simp only [rawStep]
      rw [(fireAddRow_fields _).2]
      exact ih
    | toMenu => exact ih

/-- Witness for C5 (amended) at a concrete reachable state: start a
classic round, click the block at (6,0). -/
theorem c5_selection_nodup_witness :
    (applyEv (Ev.click 6 0) (applyEv (Ev.start GameMode.classic) (init demoRng))).selected.Nodup :=
  c5_selection_nodup _
    (Reachable.step _ (Reachable.step _ (Reachable.init demoRng)))

/-- A board whose only block sits at (8,0) with the row below it empty. -/
def c5Grid : Grid :=
  List.replicate 8 eRow ++ [[block 800 5, none, none, none, none, none], eRow]

/-- In-play state selecting the block at (8,0) of that board. -/
def c5State : App :=
  { gameState := GameState.playing
    mode := GameMode.classic
    grid := c5Grid
    target := 10
    selected := [⟨8, 0⟩]
    score := 0
    timeLeft := TIME_MODE_SECONDS
    highScore := 0
    rng := demoRng
    pending := [] }

/-- Counterexample to C5 as stated: the occupied-cell invariant holds
before `addRow` (phase playing, (8,0) occupied, no duplicates) but not
after — `addRow` shifts the rows without touching the selection, so the
selected coordinate (8,0) then refers to an empty cell. -/
theorem c5_counterexample :
    c5State.gameState = GameState.playing ∧
    c5State.selected.Nodup ∧
    (cellAt c5State.grid 8 0).isSome = true ∧
    (addRow c5State).gameState = GameState.playing ∧
    (addRow c5State).selected = c5State.selected ∧
    cellAt (addRow c5State).grid 8 0 = none := by
  exact ⟨by decide, by decide, by decide, by decide, by decide, by decide⟩

/-- Round one of the C3 trace: classic round started from the initial state. -/
def c3Round1 : App := applyEv (Ev.start GameMode.classic) (init demoRng)

/-- The round after a match (2 + 6 + 8 hits the target 16), which schedules
the deferred `addRow`. -/
def c3Matched : App :=
  applyEv (Ev.click 6 3) (applyEv (Ev.click 6 2) (applyEv (Ev.click 6 0) c3Round1))

/-- Back to the menu and a brand-new classic round, all before the 300 ms
timeout fires. -/
def c3Round2 : App :=
  applyEv (Ev.start GameMode.classic) (applyEv Ev.toMenu c3Matched)

/-- C3 is violated by the code: the deferred `addRow` scheduled by the
match in round one is never cancelled, so when it fires after the player
returned to the menu and started a new round, it shifts the board of the
new round. -/
theorem c3_stale_addRow_hits_new_round :
    c3Matched.pending = [GameMode.classic] ∧
    c3Round2.pending = [GameMode.classic] ∧
    c3Round2.gameState = GameState.playing ∧
    (applyEv Ev.fireAddRow c3Round2).grid ≠ c3Round2.grid ∧
    (applyEv Ev.fireAddRow c3Round2).grid =
      c3Round2.grid.drop 1 ++ [(generateRow c3Round2.rng).1] := by
  exact ⟨by decide, by decide, by decide, by decide, by decide⟩

end SumGame
